import Mathlib

/-!
Verification of the psplit FIFO fan-out engine (src/lib.rs, src/parser.rs,
src/main.rs) against its specification.

The Rust code is shallowly embedded: pure configuration parsing becomes Lean
functions over a model of parsed INI documents; the stateful Reader/Writer
thread loops become explicit recursion over per-iteration inputs (poll
results, channel receive results, syscall outcomes), producing the
observable effects (signal stores, written lines, control flow) as data.
-/

namespace Psplit

/-- Operation modes recognised by the configuration parser
(`OperationMode` in src/lib.rs and src/parser.rs; the two enums are
field-for-field identical, so one Lean type stands for both). -/
inductive OperationMode where
  | StringRead
  | StringWrite
  | BytesRead
  | BytesWrite
deriving DecidableEq, Repr

/-- `Config`: a pair of an enabled flag and an optional operation mode
(identical in src/lib.rs and src/parser.rs). -/
structure Config where
  enabled : Bool
  mode : Option OperationMode
deriving DecidableEq, Repr

/-- `Config::default_read()`. -/
def Config.default_read : Config :=
  { enabled := true, mode := some OperationMode.StringRead }

/-- `Config::default_write()`. -/
def Config.default_write : Config :=
  { enabled := true, mode := some OperationMode.StringWrite }

/-- `SplitOut`: one destination, a pipe path and a write configuration
(identical in src/lib.rs and src/parser.rs). -/
structure SplitOut where
  pipe : String
  configuration : Config
deriving DecidableEq, Repr

/-- `SplitIn`: one source, its read configuration, destinations and pipe path
(identical in src/lib.rs and src/parser.rs). -/
structure SplitIn where
  configuration : Config
  outputs : List SplitOut
  pipe : String
deriving DecidableEq, Repr

/-- `SplitIn::enabled_outputs`: the count of enabled outputs. -/
def SplitIn.enabled_outputs (s : SplitIn) : Nat :=
  (s.outputs.filter (fun x => x.configuration.enabled)).length

/-- A parsed INI document: the named sections in file order, each holding its
(key, value) properties in order. This models the `ini::Ini` value that
`Ini::load_from_file` hands to the parsing code. -/
structure IniDoc where
  sections : List (String × List (String × String))
deriving DecidableEq, Repr

/-- `conf.section(Some(name))`: the properties of the first section with the
given name, if any. -/
def IniDoc.getSection (conf : IniDoc) (name : String) :
    Option (List (String × String)) :=
  (conf.sections.find? (fun s => s.1 == name)).map Prod.snd

/-- `conf.get_from_or(Some(sec), key, dflt)`: the value of `key` in section
`sec`, or the default when the section or key is absent. -/
def IniDoc.get_from_or (conf : IniDoc) (sec key dflt : String) : String :=
  match conf.getSection sec with
  | some props =>
    match props.find? (fun kv => kv.1 == key) with
    | some kv => kv.2
    | none => dflt
  | none => dflt

/-- Rust `str::split(",")` over the string's characters, with an
accumulator for the field being read: the comma-separated fields in order.
There is always at least one field, as in Rust. -/
def split_fields_aux (acc : List Char) : List Char → List String
  | [] => [String.mk acc.reverse]
  | c :: cs =>
    if c = ',' then String.mk acc.reverse :: split_fields_aux [] cs
    else split_fields_aux (c :: acc) cs

/-- Rust `config.split(",").collect()`. -/
def rust_split_commas (s : String) : List String :=
  split_fields_aux [] s.data

/-- Rust `str::to_lowercase` (character-wise lowering; the configuration
grammar only compares against the ASCII words "1", "rt", "rb", "wt",
"wb"). -/
def rust_to_lowercase (s : String) : String :=
  String.mk (s.data.map Char.toLower)

/-- `ParseError` of src/lib.rs: an INI-level error or a configuration error,
each carrying its message. -/
inductive ParseError where
  | Ini (e : String)
  | Configuration (e : String)
deriving DecidableEq, Repr

/-- `ParseError`'s `Display`: both variants print their message. -/
def ParseError.display : ParseError → String
  | ParseError.Ini e => e
  | ParseError.Configuration e => e

/-- `Parser::get_split_configuration` of src/lib.rs: split the config string
on commas; the first field (lower-cased) equal to "1" gives `enabled`; the
second field selects the mode or is rejected. -/
def Parser.get_split_configuration (config : String) :
    Except ParseError Config :=
  let operation_config := rust_split_commas config
  let enabled : Bool :=
    match operation_config.get? 0 with
    | some s => rust_to_lowercase s == "1"
    | none => false
  match operation_config.get? 1 with
  | some s =>
    match rust_to_lowercase s with
    | "rt" => Except.ok { enabled := enabled, mode := some OperationMode.StringRead }
    | "rb" => Except.ok { enabled := enabled, mode := some OperationMode.BytesRead }
    | "wt" => Except.ok { enabled := enabled, mode := some OperationMode.StringWrite }
    | "wb" => Except.ok { enabled := enabled, mode := some OperationMode.BytesWrite }
    | _ => Except.error (ParseError.Configuration
        ("Unknown operation type '" ++ s ++ "'"))
  | none => Except.ok { enabled := enabled, mode := none }

/-- `Parser::get_read_config` of src/lib.rs. -/
def Parser.get_read_config (config : String) : Except ParseError Config :=
  if config.isEmpty then Except.ok Config.default_read
  else Parser.get_split_configuration config

/-- `Parser::get_write_config` of src/lib.rs. -/
def Parser.get_write_config (config : String) : Except ParseError Config :=
  if config.isEmpty then Except.ok Config.default_write
  else Parser.get_split_configuration config

/-- `Parser::get_root_directory` of src/lib.rs. -/
def Parser.get_root_directory (conf : IniDoc) : String :=
  conf.get_from_or "DEFAULT" "root" "/tmp/cvnpipes"

/-- The `for (key, value) in arg.iter()` loop of
`Parser::get_split_outputs` (src/lib.rs): one `SplitOut` per property, with
early return on a configuration error. -/
def Parser.outputs_loop (root : String) :
    List (String × String) → Except ParseError (List SplitOut)
  | [] => Except.ok []
  | (key, value) :: rest => do
    let c ← Parser.get_write_config value
    let others ← Parser.outputs_loop root rest
    Except.ok ({ pipe := root ++ "/" ++ key, configuration := c } :: others)

/-- `Parser::get_split_outputs` of src/lib.rs: the outputs of the section
named after the input pipe, or none when that section is absent. -/
def Parser.get_split_outputs (conf : IniDoc) (input_pipe root : String) :
    Except ParseError (List SplitOut) :=
  match conf.getSection input_pipe with
  | some arg => Parser.outputs_loop root arg
  | none => Except.ok []

/-- The `for (input_pipe, read_configuration) in input_pipes.iter()` loop of
`Parser::get_split_inputs` (src/lib.rs). -/
def Parser.inputs_loop (root : String) (conf : IniDoc) :
    List (String × String) → Except ParseError (List SplitIn)
  | [] => Except.ok []
  | (input_pipe, read_configuration) :: rest => do
    let c ← Parser.get_read_config read_configuration
    let outs ← Parser.get_split_outputs conf input_pipe root
    let others ← Parser.inputs_loop root conf rest
    Except.ok ({ configuration := c, outputs := outs,
                 pipe := root ++ "/" ++ input_pipe } :: others)

/-- `Parser::get_split_inputs` of src/lib.rs. -/
def Parser.get_split_inputs (root : String)
    (input_pipes : List (String × String)) (conf : IniDoc) :
    Except ParseError (List SplitIn) :=
  Parser.inputs_loop root conf input_pipes

/-- `Parser::parse_config` of src/lib.rs. `root_dir_ok` stands for the
filesystem outcome of "the root path exists or `fs::create_dir_all`
succeeded"; the Rust code errors out when it is false, before looking for
the `PIPES` section. -/
def Parser.parse_config (conf : IniDoc) (root_dir_ok : Bool) :
    Except ParseError (List SplitIn) :=
  let root := Parser.get_root_directory conf
  if !root_dir_ok then
    Except.error (ParseError.Configuration "Could not create pipe root directory")
  else
    match conf.getSection "PIPES" with
    | some input_pipes => Parser.get_split_inputs root input_pipes conf
    | none =>
      Except.error (ParseError.Configuration
        "configuration must contain a 'PIPES' section")

/-- `Parser::load_from_file` of src/lib.rs. `loaded` is the outcome of
`Ini::load_from_file` (an `IniError` message on failure); the rest of the
pipeline is `parse_config`. -/
def Parser.load_from_file (loaded : Except String IniDoc)
    (root_dir_ok : Bool) : Except ParseError (List SplitIn) :=
  match loaded with
  | Except.error e => Except.error (ParseError.Ini e)
  | Except.ok conf => Parser.parse_config conf root_dir_ok

/-! ### The public parser duplicated in src/parser.rs

src/parser.rs holds a second, public copy of the configuration parser.
It is embedded separately (from its own source text) in the `ParserRs`
namespace so that claim C10 can compare the two pipelines. Its data types
`OperationMode`, `Config`, `SplitOut` and `SplitIn` are declared
field-for-field as in src/lib.rs, so the shared Lean types above stand for
both; its error enum is named `Error` and is embedded on its own. -/

namespace ParserRs

/-- `Error` of src/parser.rs. -/
inductive Error where
  | Ini (e : String)
  | Configuration (e : String)
deriving DecidableEq, Repr

/-- `Parser::get_split_configuration` of src/parser.rs. -/
def get_split_configuration (config : String) : Except Error Config :=
  let operation_config := rust_split_commas config
  let enabled : Bool :=
    match operation_config.get? 0 with
    | some s => rust_to_lowercase s == "1"
    | none => false
  match operation_config.get? 1 with
  | some s =>
    match rust_to_lowercase s with
    | "rt" => Except.ok { enabled := enabled, mode := some OperationMode.StringRead }
    | "rb" => Except.ok { enabled := enabled, mode := some OperationMode.BytesRead }
    | "wt" => Except.ok { enabled := enabled, mode := some OperationMode.StringWrite }
    | "wb" => Except.ok { enabled := enabled, mode := some OperationMode.BytesWrite }
    | _ => Except.error (Error.Configuration
        ("Unknown operation type '" ++ s ++ "'"))
  | none => Except.ok { enabled := enabled, mode := none }

/-- `Parser::get_read_config` of src/parser.rs. -/
def get_read_config (config : String) : Except Error Config :=
  if config.isEmpty then Except.ok Config.default_read
  else get_split_configuration config

/-- `Parser::get_write_config` of src/parser.rs. -/
def get_write_config (config : String) : Except Error Config :=
  if config.isEmpty then Except.ok Config.default_write
  else get_split_configuration config

/-- `Parser::get_root_directory` of src/parser.rs. -/
def get_root_directory (conf : IniDoc) : String :=
  conf.get_from_or "DEFAULT" "root" "/tmp/cvnpipes"

/-- The property loop of `Parser::get_split_outputs` (src/parser.rs): the
configuration is computed first, then the pipe path. -/
def outputs_loop (root : String) :
    List (String × String) → Except Error (List SplitOut)
  | [] => Except.ok []
  | (key, value) :: rest => do
    let c ← get_write_config value
    let pipe := root ++ "/" ++ key
    let others ← outputs_loop root rest
    Except.ok ({ pipe := pipe, configuration := c } :: others)

/-- `Parser::get_split_outputs` of src/parser.rs. -/
def get_split_outputs (conf : IniDoc) (input_pipe root : String) :
    Except Error (List SplitOut) :=
  match conf.getSection input_pipe with
  | some arg => outputs_loop root arg
  | none => Except.ok []

/-- The input loop of `Parser::get_split_inputs` (src/parser.rs). -/
def inputs_loop (root : String) (conf : IniDoc) :
    List (String × String) → Except Error (List SplitIn)
  | [] => Except.ok []
  | (input_pipe, read_configuration) :: rest => do
    let c ← get_read_config read_configuration
    let outs ← get_split_outputs conf input_pipe root
    let others ← inputs_loop root conf rest
    Except.ok ({ configuration := c, outputs := outs,
                 pipe := root ++ "/" ++ input_pipe } :: others)

/-- `Parser::get_split_inputs` of src/parser.rs. -/
def get_split_inputs (root : String)
    (input_pipes : List (String × String)) (conf : IniDoc) :
    Except Error (List SplitIn) :=
  inputs_loop root conf input_pipes

/-- `Parser::parse_config` of src/parser.rs, with the same filesystem
parameter as the src/lib.rs embedding. -/
def parse_config (conf : IniDoc) (root_dir_ok : Bool) :
    Except Error (List SplitIn) :=
  let root := get_root_directory conf
  if !root_dir_ok then
    Except.error (Error.Configuration "Could not create pipe root directory")
  else
    match conf.getSection "PIPES" with
    | some input_pipes => get_split_inputs root input_pipes conf
    | none =>
      Except.error (Error.Configuration
        "configuration must contain a 'PIPES' section")

/-- `Parser::load_from_file` of src/parser.rs. -/
def load_from_file (loaded : Except String IniDoc) (root_dir_ok : Bool) :
    Except Error (List SplitIn) :=
  match loaded with
  | Except.error e => Except.error (Error.Ini e)
  | Except.ok conf => parse_config conf root_dir_ok

/-- The evident correspondence of the two identical error enums:
`psplit::parser::Error` read as src/lib.rs's `ParseError`. -/
def Error.toParseError : Error → ParseError
  | Error.Ini e => ParseError.Ini e
  | Error.Configuration e => ParseError.Configuration e

end ParserRs

/-! ### Signals, channels and threads (src/lib.rs runtime) -/

/-- `SIG_RUN` (src/lib.rs line 21). -/
def SIG_RUN : Nat := 0

/-- `SIG_EXIT` (src/lib.rs line 22). -/
def SIG_EXIT : Nat := 1

/-- `SIG_CLOSE` (src/lib.rs line 23). -/
def SIG_CLOSE : Nat := 2

/-- The state of one `mpsc::sync_channel` as the sending side observes it:
its bound, the queued messages, and whether the receiving `Writer` thread is
still alive. -/
structure SyncChannel where
  bound : Nat
  buffer : List String
  receiver_alive : Bool
deriving DecidableEq, Repr

/-- `mpsc::sync_channel(bound)`: a fresh bounded channel. -/
def mpsc_sync_channel (bound : Nat) : SyncChannel :=
  { bound := bound, buffer := [], receiver_alive := true }

/-- `mpsc::TrySendError`: why a `try_send` failed. -/
inductive TrySendError where
  | Full
  | Disconnected
deriving DecidableEq, Repr

/-- `SyncSender::try_send`: fails with `Disconnected` when the receiver is
gone, with `Full` when the bounded buffer has no room, and otherwise
enqueues the message without blocking. -/
def SyncChannel.try_send (ch : SyncChannel) (m : String) :
    SyncChannel × Option TrySendError :=
  if !ch.receiver_alive then (ch, some TrySendError.Disconnected)
  else if ch.bound ≤ ch.buffer.length then (ch, some TrySendError.Full)
  else ({ ch with buffer := ch.buffer ++ [m] }, none)

/-- `MessageSender` of src/lib.rs: the per-destination wrapper the Reader
keeps, a disconnected mark and the send channel. -/
structure MessageSender where
  disconnected : Bool
  sender : SyncChannel
deriving DecidableEq, Repr

/-- What one iteration of `Reader::send_message`'s loop did for one
destination. -/
inductive SendOutcome where
  | skipped
  | delivered
  | dropped_full
  | found_disconnected
deriving DecidableEq, Repr

/-- The body of `Reader::send_message`'s loop for one destination: a
disconnected destination is skipped without a send attempt; otherwise one
`try_send` runs, `Full` is ignored, and `Disconnected` sets the mark. -/
def send_one (c : MessageSender) (m : String) : MessageSender × SendOutcome :=
  if c.disconnected then (c, SendOutcome.skipped)
  else
    match c.sender.try_send m with
    | (ch, none) => ({ c with sender := ch }, SendOutcome.delivered)
    | (ch, some TrySendError.Full) =>
      ({ c with sender := ch }, SendOutcome.dropped_full)
    | (ch, some TrySendError.Disconnected) =>
      ({ disconnected := true, sender := ch }, SendOutcome.found_disconnected)

/-- `Reader::send_message` (src/lib.rs lines 609-624): iterate over all
send channels, recording each destination's new state and outcome. -/
def Reader.send_message (channels : List MessageSender) (m : String) :
    List (MessageSender × SendOutcome) :=
  channels.map (fun c => send_one c m)

/-- The channel states after `Reader::send_message`. -/
def Reader.send_message_state (channels : List MessageSender) (m : String) :
    List MessageSender :=
  (Reader.send_message channels m).map Prod.fst

/-- `Reader::send_message` applied to each accepted line in turn, as
`Reader::loop_read_pipe` does over the lifetime of the group. -/
def Reader.send_messages :
    List MessageSender → List String → List MessageSender
  | channels, [] => channels
  | channels, m :: ms =>
    Reader.send_messages (Reader.send_message_state channels m) ms

/-- The loop body of `Reader::start_write_channels` (src/lib.rs lines
649-672): skip outputs that are not enabled; for each enabled output create
a `sync_channel(1)`, keep its `MessageSender`, and spawn one Writer thread
for that output. The returned list pairs each spawned Writer's destination
with the Reader-side channel wrapper. -/
def start_write_channels_loop :
    List SplitOut → List (SplitOut × MessageSender)
  | [] => []
  | out :: rest =>
    if !out.configuration.enabled then start_write_channels_loop rest
    else
      (out, { disconnected := false, sender := mpsc_sync_channel 1 })
        :: start_write_channels_loop rest

/-- `Reader::start_write_channels` over a Reader's input configuration. -/
def Reader.start_write_channels (config : SplitIn) :
    List (SplitOut × MessageSender) :=
  start_write_channels_loop config.outputs

/-- The loop of `create_splitting_threads` (src/lib.rs lines 768-791): skip
inputs that are disabled or have no enabled output; spawn one Reader thread
for each remaining input. The result lists the inputs that got a thread, in
order. -/
def create_splitting_threads : List SplitIn → List SplitIn
  | [] => []
  | input :: rest =>
    if !input.configuration.enabled || input.enabled_outputs == 0 then
      create_splitting_threads rest
    else input :: create_splitting_threads rest

/-- The outcome of `split_pipes` (src/lib.rs lines 794-810): a panic with
the parse error's message (before any thread is spawned), a clean return
when the configuration is empty, or the endless supervisor loop with the
spawned Reader threads. -/
inductive SplitPipesOutcome where
  | panicked (msg : String)
  | done
  | running (readers : List SplitIn)
deriving DecidableEq, Repr

/-- `split_pipes` of src/lib.rs, over the outcome of loading the INI file. -/
def split_pipes (loaded : Except String IniDoc) (root_dir_ok : Bool) :
    SplitPipesOutcome :=
  match Parser.load_from_file loaded root_dir_ok with
  | Except.error e => SplitPipesOutcome.panicked e.display
  | Except.ok entries =>
    if entries.length == 0 then SplitPipesOutcome.done
    else SplitPipesOutcome.running (create_splitting_threads entries)

/-- The Reader threads a `split_pipes` outcome has spawned. -/
def SplitPipesOutcome.spawned_readers : SplitPipesOutcome → List SplitIn
  | SplitPipesOutcome.running rs => rs
  | _ => []

/-! ### The Writer (Output Task) of src/lib.rs -/

/-- The `std::io::ErrorKind` values the Writer's code distinguishes. -/
inductive ErrorKind where
  | BrokenPipe
  | PermissionDenied
  | AlreadyExists
  | NotFound
  | WouldBlock
  | Other
deriving DecidableEq, Repr

/-- An `io::Result<()>` as the FIFO helper returns it. -/
inductive FifoResult where
  | ok
  | error (k : ErrorKind)
deriving DecidableEq, Repr

/-- `libc::EACCES` on Linux. -/
def EACCES : Int := 13

/-- `libc::EEXIST` on Linux. -/
def EEXIST : Int := 17

/-- `libc::ENOENT` on Linux. -/
def ENOENT : Int := 2

/-- `Writer::create` (src/lib.rs lines 323-360): the permission mode passed
to `mkfifo` is the argument or the default `0o644`; a zero return is
success, otherwise `errno` is mapped to an `ErrorKind`. `result` and
`errno` are the syscall's outputs; the returned pair is (mode given to
`mkfifo`, mapped result). -/
def Writer.create (mode : Option Nat) (result errno : Int) :
    Nat × FifoResult :=
  let m := mode.getD 0o644
  (m,
    if result == 0 then FifoResult.ok
    else if errno == EACCES then FifoResult.error ErrorKind.PermissionDenied
    else if errno == EEXIST then FifoResult.error ErrorKind.AlreadyExists
    else if errno == ENOENT then FifoResult.error ErrorKind.NotFound
    else FifoResult.error ErrorKind.Other)

/-- `Writer::open_pipe` (src/lib.rs lines 363-381): call `Writer::create`
with mode `Some(0o777)`; an `AlreadyExists` error from it counts as
success; then open the FIFO for writing (the open's own outcome is the
`open_result` oracle). The pair returned is (mode handed to `mkfifo`,
overall outcome). -/
def Writer.open_pipe (result errno : Int) (open_result : FifoResult) :
    Nat × FifoResult :=
  let c := Writer.create (some 0o777) result errno
  (c.1,
    match c.2 with
    | FifoResult.ok => open_result
    | FifoResult.error k =>
      if k == ErrorKind.AlreadyExists then open_result
      else FifoResult.error k)

/-- A `recv_timeout` outcome in `Writer::loop_write_messages`. -/
inductive RecvResult where
  | Timeout
  | Disconnected
  | Msg (m : String)
deriving DecidableEq, Repr

/-- A write syscall outcome (`Writer::write`). -/
inductive WriteResult where
  | ok (n : Nat)
  | err (k : ErrorKind)
deriving DecidableEq, Repr

/-- The varying inputs of one iteration of `Writer::loop_write_messages`:
the two signal observations, the channel receive outcome, and — when a
write is attempted — the write's outcome. -/
structure WriterIter where
  should_stop : Bool
  should_close_pipe : Bool
  recv : RecvResult
  write_result : WriteResult
deriving DecidableEq, Repr

/-- `WriteFlow` of src/lib.rs. -/
inductive WriteFlow where
  | Break
  | Restart
  | ClosePipe
deriving DecidableEq, Repr

/-- `Writer::loop_write_messages` (src/lib.rs lines 496-545), driven by the
fixed `event.is_write_closed()` flag of the readiness event and a list of
per-iteration inputs. The result is (the `WriteFlow` returned, or `none`
when the supplied iterations ran out with the loop still going; the final
`ignore_first_message` latch; the lines written to the destination in
order). A received line is dropped, and the latch cleared, when the latch
was set; a write failing with `BrokenPipe` sets the latch and returns
`Restart`; any other write error is logged and the loop continues. -/
def Writer.loop_write_messages :
    Bool → Bool → List WriterIter → Option WriteFlow × Bool × List String
  | _, ign, [] => (none, ign, [])
  | write_closed, ign, it :: rest =>
    if write_closed || it.should_stop then
      (some WriteFlow.Break, ign, [])
    else if it.should_close_pipe then
      (some WriteFlow.ClosePipe, ign, [])
    else
      match it.recv with
      | RecvResult.Timeout => Writer.loop_write_messages write_closed ign rest
      | RecvResult.Disconnected => (some WriteFlow.Break, ign, [])
      | RecvResult.Msg m =>
        if ign then Writer.loop_write_messages write_closed false rest
        else
          match it.write_result with
          | WriteResult.ok _ =>
            let r := Writer.loop_write_messages write_closed ign rest
            (r.1, r.2.1, m :: r.2.2)
          | WriteResult.err k =>
            if k == ErrorKind.BrokenPipe then (some WriteFlow.Restart, true, [])
            else Writer.loop_write_messages write_closed ign rest

/-- One pass of the outer loop of `Writer::run_loop` (src/lib.rs lines
409-458), as the loop observes it: the stop signal was set; the close
signal was set (sleep and retry); `open_pipe` failed with an error kind; or
a session ran and `loop_till_stopped` handed back a `WriteFlow`. -/
inductive RunIter where
  | Stopped
  | CloseWait
  | OpenErr (k : ErrorKind)
  | Session (flow : WriteFlow)
deriving DecidableEq, Repr

/-- How `Writer::run_loop` ends. -/
inductive RunResult where
  | normal
  | fatal (k : ErrorKind)
  | running
deriving DecidableEq, Repr

/-- `Writer::run_loop` over its observed iterations. A stop signal or a
`Break` flow returns `Ok(())` (`normal`); a `PermissionDenied` open error
returns that error (`fatal`); any other open error sleeps one interval and
retries; `Restart` and `ClosePipe` flows continue the loop, reopening the
pipe on the next pass. -/
def Writer.run_loop : List RunIter → RunResult
  | [] => RunResult.running
  | RunIter.Stopped :: _ => RunResult.normal
  | RunIter.CloseWait :: rest => Writer.run_loop rest
  | RunIter.OpenErr k :: rest =>
    if k == ErrorKind.PermissionDenied then RunResult.fatal k
    else Writer.run_loop rest
  | RunIter.Session flow :: rest =>
    match flow with
    | WriteFlow.Break => RunResult.normal
    | WriteFlow.Restart => Writer.run_loop rest
    | WriteFlow.ClosePipe => Writer.run_loop rest

/-- The constructed state of `Writer::new` (src/lib.rs lines 550-561) that
the write loop consults: the `ignore_first_message` latch, set to `false`
at construction. -/
structure WriterState where
  ignore_first_message : Bool
deriving DecidableEq, Repr

/-- `Writer::new`: a fresh Writer with the latch unset. -/
def Writer.new : WriterState :=
  { ignore_first_message := false }

/-! ### The Reader's writer-state signal (src/lib.rs) -/

/-- The varying inputs of one iteration of `Reader::loop_till_stopped`
(src/lib.rs lines 707-733): whether `should_stop` observed `SIG_EXIT`, and
how many readable `PIPE_RECV` events the poll returned. -/
structure ReaderPollIter where
  should_stop : Bool
  readable_events : Nat
deriving DecidableEq, Repr

/-- The signal stores one poll pass performs: for each readable event,
`open_writing_pipes` stores `SIG_RUN`, then after `loop_read_pipe` returns
`close_writing_pipes` stores `SIG_CLOSE`. -/
def reader_poll_writes (n : Nat) : List Nat :=
  (List.replicate n [SIG_RUN, SIG_CLOSE]).flatten

/-- The sequence of values `Reader::loop_till_stopped` stores into the
per-group writer-state signal: on a stop observation `stop_writers` stores
`SIG_EXIT` and the loop breaks; otherwise each poll pass contributes its
`RUN`/`CLOSE` pairs. -/
def Reader.loop_till_stopped_writes : List ReaderPollIter → List Nat
  | [] => []
  | it :: rest =>
    if it.should_stop then [SIG_EXIT]
    else reader_poll_writes it.readable_events
      ++ Reader.loop_till_stopped_writes rest

/-- Every store to the writer-state signal over a Reader's lifetime: the
loop's stores followed by the `SIG_EXIT` that `Drop for Reader` publishes
via `stop_writers`. The signal is mutated nowhere else — the Writers only
read it under the lock (`should_stop`, `should_close_pipe`). -/
def Reader.lifetime_writes (iters : List ReaderPollIter) : List Nat :=
  Reader.loop_till_stopped_writes iters ++ [SIG_EXIT]

/-! ### Helper lemmas -/

/-- `create_splitting_threads` keeps exactly the inputs that are enabled and
have an enabled output. -/
theorem create_splitting_threads_eq_filter (l : List SplitIn) :
    create_splitting_threads l
      = l.filter (fun i => i.configuration.enabled && !(i.enabled_outputs == 0)) := by
  induction l with
  | nil => rfl
  | cons a l ih =>
    cases ha : a.configuration.enabled <;> cases hz : (a.enabled_outputs == 0) <;>
      simp [create_splitting_threads, List.filter_cons, ha, hz, ih]

/-- The destinations `start_write_channels` spawns Writers for are exactly
the enabled outputs. -/
theorem start_write_channels_loop_map_fst (l : List SplitOut) :
    (start_write_channels_loop l).map Prod.fst
      = l.filter (fun o => o.configuration.enabled) := by
  induction l with
  | nil => rfl
  | cons a l ih =>
    cases ha : a.configuration.enabled <;>
      simp [start_write_channels_loop, List.filter_cons, ha, ih]

/-- Every channel wrapper `start_write_channels` creates is fresh: not
disconnected, and a `sync_channel(1)`. -/
theorem start_write_channels_loop_mem (l : List SplitOut)
    (p : SplitOut × MessageSender) (hp : p ∈ start_write_channels_loop l) :
    p.2 = { disconnected := false, sender := mpsc_sync_channel 1 }
      ∧ p.1.configuration.enabled = true ∧ p.1 ∈ l := by
  induction l with
  | nil => simp [start_write_channels_loop] at hp
  | cons a l ih =>
    by_cases ha : a.configuration.enabled = true
    · rw [start_write_channels_loop] at hp
      simp only [ha, Bool.not_true, Bool.false_eq_true, if_false] at hp
      rcases List.mem_cons.mp hp with h | h
      · subst h; exact ⟨rfl, ha, List.mem_cons_self _ _⟩
      · obtain ⟨h1, h2, h3⟩ := ih h
        exact ⟨h1, h2, List.mem_cons_of_mem _ h3⟩
    · rw [start_write_channels_loop] at hp
      simp only [Bool.not_eq_true] at ha
      simp only [ha, Bool.not_false, if_true] at hp
      obtain ⟨h1, h2, h3⟩ := ih hp
      exact ⟨h1, h2, List.mem_cons_of_mem _ h3⟩

/-! ### Claim theorems -/

/-- C3: after a write fails with `BrokenPipe` the Writer sets the
ignore-first-message latch and returns `Restart`; with the latch set, the
next line successfully received is dropped without being written and the
latch is cleared, so later lines are written again; and `Writer::new`
starts with the latch unset, so the first line a fresh Writer receives is
written. -/
theorem ignore_first_message_latch_spec :
    Writer.new.ignore_first_message = false
  ∧ (∀ (m : String) (rest : List WriterIter),
      Writer.loop_write_messages false false
        ({ should_stop := false, should_close_pipe := false,
           recv := RecvResult.Msg m,
           write_result := WriteResult.err ErrorKind.BrokenPipe } :: rest)
        = (some WriteFlow.Restart, true, []))
  ∧ (∀ (m : String) (w : WriteResult) (rest : List WriterIter),
      Writer.loop_write_messages false true
        ({ should_stop := false, should_close_pipe := false,
           recv := RecvResult.Msg m, write_result := w } :: rest)
        = Writer.loop_write_messages false false rest)
  ∧ (∀ (m₁ m₂ : String) (w : WriteResult) (n : Nat),
      Writer.loop_write_messages false true
        [{ should_stop := false, should_close_pipe := false,
           recv := RecvResult.Msg m₁, write_result := w },
         { should_stop := false, should_close_pipe := false,
           recv := RecvResult.Msg m₂, write_result := WriteResult.ok n }]
        = (none, false, [m₂]))
  ∧ (∀ (m : String) (n : Nat),
      Writer.loop_write_messages false Writer.new.ignore_first_message
        [{ should_stop := false, should_close_pipe := false,
           recv := RecvResult.Msg m, write_result := WriteResult.ok n }]
        = (none, false, [m])) :=
  ⟨rfl, fun _ _ => rfl, fun _ _ _ => rfl, fun _ _ _ _ => rfl, fun _ _ => rfl⟩

/-- C2 counterexample: with a write-closed readiness event (and no stop or
close signal pending), `loop_write_messages` returns `WriteFlow::Break` —
not `Restart`, the Recovering flow — and `run_loop` thereupon returns
`Ok(())`, terminating the Writer instead of reopening; a `Restart` flow, by
contrast, would have continued the loop. -/
theorem write_closed_terminates_counterexample :
    Writer.loop_write_messages true false
      [{ should_stop := false, should_close_pipe := false,
         recv := RecvResult.Timeout, write_result := WriteResult.ok 0 }]
      = (some WriteFlow.Break, false, [])
  ∧ Writer.run_loop [RunIter.Session WriteFlow.Break] = RunResult.normal
  ∧ WriteFlow.Break ≠ WriteFlow.Restart
  ∧ Writer.run_loop [RunIter.Session WriteFlow.Restart] = RunResult.running :=
  ⟨rfl, rfl, by decide, rfl⟩

/-- C2 (amended): in the Writer's write loop a `BrokenPipe` write error
sets the latch and returns `Restart`, upon which `run_loop` continues (and
so reopens the pipe); any other write error is logged and the loop
continues; and a write-closed readiness event makes the loop return
`Break`, upon which `run_loop` returns `Ok(())` — the Writer terminates
rather than recovering. -/
theorem write_error_classification_amended (ign : Bool) (m : String)
    (k : ErrorKind) (rest : List WriterIter) (rs : List RunIter)
    (hk : k ≠ ErrorKind.BrokenPipe) :
    (Writer.loop_write_messages false false
      ({ should_stop := false, should_close_pipe := false,
         recv := RecvResult.Msg m,
         write_result := WriteResult.err ErrorKind.BrokenPipe } :: rest)
      = (some WriteFlow.Restart, true, []))
  ∧ (Writer.run_loop (RunIter.Session WriteFlow.Restart :: rs)
      = Writer.run_loop rs)
  ∧ (Writer.loop_write_messages false false
      ({ should_stop := false, should_close_pipe := false,
         recv := RecvResult.Msg m, write_result := WriteResult.err k } :: rest)
      = Writer.loop_write_messages false false rest)
  ∧ (∀ it : WriterIter, Writer.loop_write_messages true ign (it :: rest)
      = (some WriteFlow.Break, ign, []))
  ∧ (Writer.run_loop (RunIter.Session WriteFlow.Break :: rs)
      = RunResult.normal) := by
  have hkb : (k == ErrorKind.BrokenPipe) = false := by
    simp [hk]
  refine ⟨rfl, rfl, ?_, fun it => rfl, rfl⟩
  simp only [Writer.loop_write_messages, Bool.false_or, hkb,
    Bool.false_eq_true, if_false]

/-- C2 witness: the amended theorem applied at the error kind `Other`. -/
theorem write_error_classification_amended_witness :
    Writer.loop_write_messages false false
      [{ should_stop := false, should_close_pipe := false,
         recv := RecvResult.Msg "x", write_result := WriteResult.err ErrorKind.Other }]
      = Writer.loop_write_messages false false [] :=
  (write_error_classification_amended false "x" ErrorKind.Other [] []
    (by decide)).2.2.1

/-- C5: a Writer thread is spawned exactly for the enabled outputs, and a
Reader thread exactly for the inputs that are enabled and have at least one
enabled output — one thread per qualifying entry, in order. -/
theorem thread_spawn_enabled_filter (entries : List SplitIn) (s : SplitIn) :
    create_splitting_threads entries
      = entries.filter (fun i => i.configuration.enabled && !(i.enabled_outputs == 0))
  ∧ (create_splitting_threads entries).length
      = entries.countP (fun i => i.configuration.enabled && !(i.enabled_outputs == 0))
  ∧ (∀ i ∈ create_splitting_threads entries,
      i.configuration.enabled = true ∧ 0 < i.enabled_outputs)
  ∧ (∀ i ∈ entries, i.configuration.enabled = true → 0 < i.enabled_outputs →
      i ∈ create_splitting_threads entries)
  ∧ (Reader.start_write_channels s).map Prod.fst
      = s.outputs.filter (fun o => o.configuration.enabled)
  ∧ (∀ p ∈ Reader.start_write_channels s,
      p.1.configuration.enabled = true ∧ p.1 ∈ s.outputs) := by
  refine ⟨create_splitting_threads_eq_filter entries, ?_, ?_, ?_, ?_, ?_⟩
  · rw [create_splitting_threads_eq_filter, ← List.countP_eq_length_filter]
  · intro i hi
    rw [create_splitting_threads_eq_filter] at hi
    obtain ⟨-, hp⟩ := List.mem_filter.mp hi
    simp only [Bool.and_eq_true, Bool.not_eq_true', beq_eq_false_iff_ne] at hp
    exact ⟨hp.1, Nat.pos_of_ne_zero hp.2⟩
  · intro i hi he hn
    rw [create_splitting_threads_eq_filter]
    refine List.mem_filter.mpr ⟨hi, ?_⟩
    simp only [Bool.and_eq_true, Bool.not_eq_true', beq_eq_false_iff_ne]
    exact ⟨he, Nat.pos_iff_ne_zero.mp hn⟩
  · exact start_write_channels_loop_map_fst s.outputs
  · intro p hp
    obtain ⟨-, h2, h3⟩ := start_write_channels_loop_mem s.outputs p hp
    exact ⟨h2, h3⟩

/-- C8: the FIFO create helper defaults the `mkfifo` mode to `0o644` and
the Writer's open path passes `0o777`; a failed `mkfifo` maps `EACCES`,
`EEXIST` and `ENOENT` to `PermissionDenied`, `AlreadyExists` and `NotFound`
and anything else to `Other`; `open_pipe` treats `AlreadyExists` as
success; and in `run_loop` a `PermissionDenied` open error terminates the
Writer with that error while any other open error sleeps one interval and
retries. -/
theorem fifo_create_error_mapping (mode : Option Nat) (r e : Int)
    (o : FifoResult) (k : ErrorKind) (rest : List RunIter)
    (he1 : e ≠ EACCES) (he2 : e ≠ EEXIST) (he3 : e ≠ ENOENT)
    (hk : k ≠ ErrorKind.PermissionDenied) :
    (Writer.create none r e).1 = 0o644
  ∧ (Writer.open_pipe r e o).1 = 0o777
  ∧ (Writer.create mode (-1) EACCES).2 = FifoResult.error ErrorKind.PermissionDenied
  ∧ (Writer.create mode (-1) EEXIST).2 = FifoResult.error ErrorKind.AlreadyExists
  ∧ (Writer.create mode (-1) ENOENT).2 = FifoResult.error ErrorKind.NotFound
  ∧ (Writer.create mode (-1) e).2 = FifoResult.error ErrorKind.Other
  ∧ (Writer.create mode 0 e).2 = FifoResult.ok
  ∧ (Writer.open_pipe (-1) EEXIST o).2 = o
  ∧ Writer.run_loop (RunIter.OpenErr ErrorKind.PermissionDenied :: rest)
      = RunResult.fatal ErrorKind.PermissionDenied
  ∧ Writer.run_loop (RunIter.OpenErr k :: rest) = Writer.run_loop rest := by
  have hb1 : (e == EACCES) = false := by simp [he1]
  have hb2 : (e == EEXIST) = false := by simp [he2]
  have hb3 : (e == ENOENT) = false := by simp [he3]
  have hbk : (k == ErrorKind.PermissionDenied) = false := by simp [hk]
  refine ⟨rfl, rfl, rfl, rfl, rfl, ?_, rfl, rfl, rfl, ?_⟩
  · simp [Writer.create, hb1, hb2, hb3]
  · simp only [Writer.run_loop, hbk, Bool.false_eq_true, if_false]

/-- C8 witness: the mapping theorem applied at `errno` 99 (neither
`EACCES`, `EEXIST` nor `ENOENT`) and the error kind `Other`. -/
theorem fifo_create_error_mapping_witness :
    (Writer.create (some 511) (-1) 99).2 = FifoResult.error ErrorKind.Other :=
  (fifo_create_error_mapping (some 511) 0 99 FifoResult.ok ErrorKind.Other []
    (by decide) (by decide) (by decide) (by decide)).2.2.2.2.2.1

/-- C9: on an INI document with no `PIPES` section, parsing (and so
`load_from_file`) returns the configuration error with the exact message,
`split_pipes` panics with that message, and no splitting thread is
spawned. -/
theorem missing_pipes_section_error (conf : IniDoc)
    (h : conf.getSection "PIPES" = none) :
    Parser.parse_config conf true
      = Except.error (ParseError.Configuration
          "configuration must contain a 'PIPES' section")
  ∧ Parser.load_from_file (Except.ok conf) true
      = Except.error (ParseError.Configuration
          "configuration must contain a 'PIPES' section")
  ∧ split_pipes (Except.ok conf) true
      = SplitPipesOutcome.panicked "configuration must contain a 'PIPES' section"
  ∧ (split_pipes (Except.ok conf) true).spawned_readers = [] := by
  have hp : Parser.parse_config conf true
      = Except.error (ParseError.Configuration
          "configuration must contain a 'PIPES' section") := by
    simp [Parser.parse_config, h]
  have hl : Parser.load_from_file (Except.ok conf) true
      = Except.error (ParseError.Configuration
          "configuration must contain a 'PIPES' section") := hp
  refine ⟨hp, hl, ?_, ?_⟩ <;>
    simp [split_pipes, hl, ParseError.display, SplitPipesOutcome.spawned_readers]

/-- An INI document with a `DEFAULT` section and an output section but no
`PIPES` section, as in the repository's `needs_pipes_section` test. -/
def no_pipes_ini : IniDoc :=
  { sections := [("DEFAULT", [("root", "/tmp")]),
                 ("cvAnalogsMapperExt", [("cvAnalogsMapperExtFuelApp", "")])] }

/-- C9 witness: the missing-`PIPES` theorem applied to a concrete
document. -/
theorem missing_pipes_section_error_witness :
    split_pipes (Except.ok no_pipes_ini) true
      = SplitPipesOutcome.panicked "configuration must contain a 'PIPES' section" :=
  (missing_pipes_section_error no_pipes_ini (by decide)).2.2.1

/-- Every store a poll pass performs is `SIG_RUN` or `SIG_CLOSE`. -/
theorem reader_poll_writes_mem (n : Nat) (x : Nat)
    (hx : x ∈ reader_poll_writes n) : x = SIG_RUN ∨ x = SIG_CLOSE := by
  induction n with
  | zero => simp [reader_poll_writes] at hx
  | succ k ih =>
    rw [reader_poll_writes, List.replicate_succ, List.flatten_cons] at hx
    rcases List.mem_append.mp hx with h | h
    · rcases List.mem_cons.mp h with h1 | h1
      · exact Or.inl h1
      · exact Or.inr (List.mem_singleton.mp h1)
    · exact ih h

/-- The stores of `Reader::loop_till_stopped` are a block of `RUN`/`CLOSE`
values, optionally closed off by a single final `SIG_EXIT`. -/
theorem loop_till_stopped_writes_shape (iters : List ReaderPollIter) :
    ∃ w, (∀ x ∈ w, x = SIG_RUN ∨ x = SIG_CLOSE)
      ∧ (Reader.loop_till_stopped_writes iters = w
         ∨ Reader.loop_till_stopped_writes iters = w ++ [SIG_EXIT]) := by
  induction iters with
  | nil => exact ⟨[], by simp, Or.inl rfl⟩
  | cons it rest ih =>
    cases h : it.should_stop with
    | true =>
      refine ⟨[], by simp, Or.inr ?_⟩
      simp [Reader.loop_till_stopped_writes, h]
    | false =>
      obtain ⟨w, hw, hcase⟩ := ih
      refine ⟨reader_poll_writes it.readable_events ++ w, ?_, ?_⟩
      · intro x hx
        rcases List.mem_append.mp hx with h1 | h2
        · exact reader_poll_writes_mem _ _ h1
        · exact hw x h2
      · rcases hcase with he | he
        · exact Or.inl (by simp [Reader.loop_till_stopped_writes, h, he])
        · exact Or.inr (by simp [Reader.loop_till_stopped_writes, h, he])

/-- A list made of a `SIG_EXIT`-free block followed by an all-`SIG_EXIT`
tail has only `SIG_EXIT` after any occurrence of `SIG_EXIT`. -/
theorem exit_tail_after_exit (w t l₁ l₂ : List Nat)
    (hw : ∀ x ∈ w, x ≠ SIG_EXIT) (ht : ∀ x ∈ t, x = SIG_EXIT)
    (heq : w ++ t = l₁ ++ SIG_EXIT :: l₂) : ∀ x ∈ l₂, x = SIG_EXIT := by
  induction w generalizing l₁ with
  | nil =>
    intro x hx
    refine ht x ?_
    rw [List.nil_append] at heq
    rw [heq]
    exact List.mem_append_right _ (List.mem_cons_of_mem _ hx)
  | cons a w ih =>
    cases l₁ with
    | nil =>
      rw [List.cons_append, List.nil_append] at heq
      have ha : a = SIG_EXIT := (List.cons.injEq _ _ _ _ ▸ heq).1
      exact absurd ha (hw a (List.mem_cons_self _ _))
    | cons b l₁ =>
      rw [List.cons_append, List.cons_append] at heq
      have h2 : w ++ t = l₁ ++ SIG_EXIT :: l₂ :=
        (List.cons.injEq _ _ _ _ ▸ heq).2
      exact ih l₁ (fun x hx => hw x (List.mem_cons_of_mem _ hx)) h2

/-- C4: the per-group writer-state signal is written only by its Reader
(the `lifetime_writes` model records every store: the loop's
`open_writing_pipes` / `close_writing_pipes` / `stop_writers` and the
`Drop` impl's `stop_writers`), and the stores are monotone toward
`SIG_EXIT`: whatever comes after a store of `SIG_EXIT` is again
`SIG_EXIT` — never `SIG_RUN` or `SIG_CLOSE`. -/
theorem writer_signal_monotone_exit (iters : List ReaderPollIter)
    (l₁ l₂ : List Nat)
    (heq : Reader.lifetime_writes iters = l₁ ++ SIG_EXIT :: l₂) :
    ∀ x ∈ l₂, x = SIG_EXIT := by
  obtain ⟨w, hw, hcase⟩ := loop_till_stopped_writes_shape iters
  have hw' : ∀ x ∈ w, x ≠ SIG_EXIT := by
    intro x hx
    rcases hw x hx with h | h <;> simp [h, SIG_RUN, SIG_CLOSE, SIG_EXIT]
  rcases hcase with he | he
  · refine exit_tail_after_exit w [SIG_EXIT] l₁ l₂ hw' (by simp) ?_
    rw [← heq, Reader.lifetime_writes, he]
  · refine exit_tail_after_exit w [SIG_EXIT, SIG_EXIT] l₁ l₂ hw' (by simp) ?_
    rw [← heq, Reader.lifetime_writes, he, List.append_assoc]
    rfl

/-- C4 witness: the monotonicity theorem applied to a Reader that serves
one readable poll pass and then observes the stop signal; its stores are
`[RUN, CLOSE, EXIT, EXIT]`, and the store after the first `EXIT` is again
`EXIT`. -/
theorem writer_signal_monotone_exit_witness : (1 : Nat) = SIG_EXIT :=
  writer_signal_monotone_exit
    [{ should_stop := false, readable_events := 1 },
     { should_stop := true, readable_events := 0 }]
    [SIG_RUN, SIG_CLOSE] [1] (by decide) 1 (by decide)

/-- The channel list after `send_message` is the pointwise image of
`send_one`. -/
theorem send_message_state_eq (channels : List MessageSender) (m : String) :
    Reader.send_message_state channels m
      = channels.map (fun c => (send_one c m).1) := by
  simp [Reader.send_message_state, Reader.send_message, List.map_map,
    Function.comp]

/-- One destination's state after a whole sequence of fan-out calls. -/
def send_one_fold (c : MessageSender) (msgs : List String) : MessageSender :=
  msgs.foldl (fun c m => (send_one c m).1) c

/-- `send_messages` acts on each destination independently. -/
theorem send_messages_eq_map (msgs : List String) :
    ∀ channels, Reader.send_messages channels msgs
      = channels.map (fun c => send_one_fold c msgs) := by
  induction msgs with
  | nil =>
    intro channels
    simp [Reader.send_messages, send_one_fold]
  | cons m ms ih =>
    intro channels
    rw [Reader.send_messages, send_message_state_eq, ih, List.map_map]
    rfl

/-- A disconnected destination is skipped and left untouched. -/
theorem send_one_disconnected (c : MessageSender) (m : String)
    (h : c.disconnected = true) : send_one c m = (c, SendOutcome.skipped) := by
  simp [send_one, h]

/-- A destination once marked disconnected stays untouched by every later
fan-out call. -/
theorem send_one_fold_disconnected (msgs : List String) :
    ∀ c : MessageSender, c.disconnected = true → send_one_fold c msgs = c := by
  induction msgs with
  | nil => intro c _; rfl
  | cons m ms ih =>
    intro c hc
    show send_one_fold (send_one c m).1 ms = c
    rw [send_one_disconnected c m hc]
    exact ih c hc

/-- C1: for each line, `send_message` treats every destination
independently and attempts exactly one non-blocking send per destination
not marked disconnected (a marked one is skipped); the channels
`start_write_channels` creates are fresh `sync_channel(1)`s — capacity
exactly one; a `Full` failure leaves the destination's state untouched
(silent drop) while every other destination still gets its attempt; a
`Disconnected` failure sets the mark; and a marked destination is never
attempted again over any later sequence of fan-out calls. -/
theorem fan_out_send_message_spec (channels : List MessageSender)
    (m : String) (msgs : List String) (s : SplitIn) :
    (Reader.send_message channels m).length = channels.length
  ∧ (∀ i : Nat, (Reader.send_message channels m)[i]?
      = channels[i]?.map (fun c => send_one c m))
  ∧ (∀ c : MessageSender, c.disconnected = true →
      send_one c m = (c, SendOutcome.skipped))
  ∧ (∀ c : MessageSender, c.disconnected = false →
      (send_one c m).2 ≠ SendOutcome.skipped)
  ∧ (∀ c : MessageSender, c.disconnected = false →
      c.sender.receiver_alive = true →
      c.sender.bound ≤ c.sender.buffer.length →
      send_one c m = (c, SendOutcome.dropped_full))
  ∧ (∀ c : MessageSender, c.disconnected = false →
      c.sender.receiver_alive = true →
      c.sender.buffer.length < c.sender.bound →
      send_one c m
        = ({ c with sender := { c.sender with buffer := c.sender.buffer ++ [m] } },
           SendOutcome.delivered))
  ∧ (∀ c : MessageSender, c.disconnected = false →
      c.sender.receiver_alive = false →
      send_one c m = ({ c with disconnected := true },
        SendOutcome.found_disconnected))
  ∧ (∀ p ∈ Reader.start_write_channels s,
      p.2.disconnected = false ∧ p.2.sender.bound = 1
        ∧ p.2.sender.buffer = [] ∧ p.2.sender.receiver_alive = true)
  ∧ (∀ (i : Nat) (c : MessageSender), channels[i]? = some c →
      c.disconnected = true →
      (Reader.send_messages channels msgs)[i]? = some c
        ∧ send_one c m = (c, SendOutcome.skipped))
  ∧ (∀ (i : Nat) (c : MessageSender), channels[i]? = some c →
      c.disconnected = false → c.sender.receiver_alive = false →
      (Reader.send_messages (Reader.send_message_state channels m) msgs)[i]?
        = some { c with disconnected := true }) := by
  refine ⟨by simp [Reader.send_message], ?_, send_one_disconnected (m := m),
    ?_, ?_, ?_, ?_, ?_, ?_, ?_⟩
  · intro i
    simp [Reader.send_message]
  · intro c hc
    simp only [send_one, hc, Bool.false_eq_true, if_false]
    rcases h2 : c.sender.try_send m with ⟨ch, o⟩
    rcases o with _ | e
    · simp
    · cases e <;> simp
  · intro c hc halive hfull
    simp [send_one, hc, SyncChannel.try_send, halive, hfull]
    rw [← hc]
  · intro c hc halive hlt
    simp [send_one, hc, SyncChannel.try_send, halive, Nat.not_le.mpr hlt]
  · intro c hc halive
    simp [send_one, hc, SyncChannel.try_send, halive]
  · intro p hp
    have h := (start_write_channels_loop_mem s.outputs p hp).1
    rw [h]
    exact ⟨rfl, rfl, rfl, rfl⟩
  · intro i c hi hc
    constructor
    · rw [send_messages_eq_map, List.getElem?_map, hi, Option.map_some',
        send_one_fold_disconnected msgs c hc]
    · exact send_one_disconnected c m hc
  · intro i c hi hc halive
    have hone : (send_one c m).1 = { c with disconnected := true } := by
      simp [send_one, hc, SyncChannel.try_send, halive]
    rw [send_messages_eq_map, List.getElem?_map, send_message_state_eq,
      List.getElem?_map, hi, Option.map_some', Option.map_some', hone,
      send_one_fold_disconnected msgs _ rfl]

/-- C6: the empty config string yields the defaults (enabled, text-read on
the read side and text-write on the write side); a non-empty string goes
through `get_split_configuration` on both sides; there `enabled` holds
exactly when the first comma-field, lower-cased, is "1"; a second field of
`rt`/`rb`/`wt`/`wb` (case-insensitively) selects the corresponding mode;
and any other second field yields the `Unknown operation type`
configuration error naming that field. -/
theorem config_string_parsing_spec (s f : String) (c : Config) :
    Parser.get_read_config "" = Except.ok Config.default_read
  ∧ Parser.get_write_config "" = Except.ok Config.default_write
  ∧ Config.default_read = { enabled := true, mode := some OperationMode.StringRead }
  ∧ Config.default_write = { enabled := true, mode := some OperationMode.StringWrite }
  ∧ (s ≠ "" → Parser.get_read_config s = Parser.get_split_configuration s
      ∧ Parser.get_write_config s = Parser.get_split_configuration s)
  ∧ (Parser.get_split_configuration s = Except.ok c →
      (c.enabled = true ↔ rust_to_lowercase ((rust_split_commas s).headD "") = "1"))
  ∧ ((rust_split_commas s).get? 1 = some f →
        (rust_to_lowercase f = "rt" → Parser.get_split_configuration s
          = Except.ok { enabled := rust_to_lowercase ((rust_split_commas s).headD "") == "1",
                        mode := some OperationMode.StringRead })
      ∧ (rust_to_lowercase f = "rb" → Parser.get_split_configuration s
          = Except.ok { enabled := rust_to_lowercase ((rust_split_commas s).headD "") == "1",
                        mode := some OperationMode.BytesRead })
      ∧ (rust_to_lowercase f = "wt" → Parser.get_split_configuration s
          = Except.ok { enabled := rust_to_lowercase ((rust_split_commas s).headD "") == "1",
                        mode := some OperationMode.StringWrite })
      ∧ (rust_to_lowercase f = "wb" → Parser.get_split_configuration s
          = Except.ok { enabled := rust_to_lowercase ((rust_split_commas s).headD "") == "1",
                        mode := some OperationMode.BytesWrite })
      ∧ (rust_to_lowercase f ≠ "rt" → rust_to_lowercase f ≠ "rb" →
          rust_to_lowercase f ≠ "wt" → rust_to_lowercase f ≠ "wb" →
          Parser.get_split_configuration s
            = Except.error (ParseError.Configuration
                ("Unknown operation type '" ++ f ++ "'")))) := by
  have hempty : ∀ t : String, t ≠ "" → t.isEmpty = false := by
    intro t ht
    cases h : t.isEmpty
    · rfl
    · exact absurd ((String.isEmpty_iff t).mp h) ht
  refine ⟨rfl, rfl, rfl, rfl, ?_, ?_, ?_⟩
  · intro hs
    constructor
    · simp [Parser.get_read_config, hempty s hs]
    · simp [Parser.get_write_config, hempty s hs]
  · intro hok
    unfold Parser.get_split_configuration at hok
    rcases hl : rust_split_commas s with _ | ⟨a, t⟩ <;> rw [hl] at hok
    · simp only [List.get?] at hok
      cases hok
      decide
    · rcases t with _ | ⟨b, t'⟩
      · simp only [List.get?] at hok
        cases hok
        simp [List.headD]
      · simp only [List.get?] at hok
        split at hok <;> cases hok <;> simp [List.headD]
  · intro hf
    have hshape : ∃ a t', rust_split_commas s = a :: f :: t' := by
      rcases h : rust_split_commas s with _ | ⟨a, t⟩
      · rw [h] at hf; simp [List.get?] at hf
      · rcases t with _ | ⟨b, t'⟩
        · rw [h] at hf; simp [List.get?] at hf
        · rw [h] at hf
          simp only [List.get?, Option.some.injEq] at hf
          subst hf
          exact ⟨a, t', rfl⟩
    obtain ⟨a, t', hl⟩ := hshape
    refine ⟨?_, ?_, ?_, ?_, ?_⟩
    · intro h1
      unfold Parser.get_split_configuration
      rw [hl]
      simp only [List.get?, List.headD]
      rw [h1]
      rfl
    · intro h1
      unfold Parser.get_split_configuration
      rw [hl]
      simp only [List.get?, List.headD]
      rw [h1]
      rfl
    · intro h1
      unfold Parser.get_split_configuration
      rw [hl]
      simp only [List.get?, List.headD]
      rw [h1]
      rfl
    · intro h1
      unfold Parser.get_split_configuration
      rw [hl]
      simp only [List.get?, List.headD]
      rw [h1]
      rfl
    · intro h1 h2 h3 h4
      unfold Parser.get_split_configuration
      rw [hl]
      simp only [List.get?]

/-- An `Except` whose `isOk` holds is an `ok`. -/
theorem except_ok_of_isOk {ε α : Type} (e : Except ε α) (h : e.isOk = true) :
    ∃ a, e = Except.ok a := by
  cases e with
  | ok a => exact ⟨a, rfl⟩
  | error e => simp [Except.isOk, Except.toBool] at h

/-- `get_split_outputs`'s loop succeeds on a section whose write configs all
parse, producing one output per property with pipe path `<root>/<key>`. -/
theorem outputs_loop_ok (root : String) (sec : List (String × String))
    (h : ∀ kv ∈ sec, ∃ c, Parser.get_write_config kv.2 = Except.ok c) :
    ∃ outs, Parser.outputs_loop root sec = Except.ok outs
      ∧ outs.map SplitOut.pipe = sec.map (fun kv => root ++ "/" ++ kv.1) := by
  induction sec with
  | nil => exact ⟨[], rfl, rfl⟩
  | cons kv rest ih =>
    obtain ⟨k, v⟩ := kv
    obtain ⟨c, hc⟩ := h (k, v) (List.mem_cons_self _ _)
    have hc' : Parser.get_write_config v = Except.ok c := hc
    obtain ⟨outs, ho, hmap⟩ :=
      ih (fun kv2 hkv2 => h kv2 (List.mem_cons_of_mem _ hkv2))
    refine ⟨{ pipe := root ++ "/" ++ k, configuration := c } :: outs, ?_, ?_⟩
    · show Parser.outputs_loop root ((k, v) :: rest) = _
      simp only [Parser.outputs_loop, hc', ho]
      rfl
    · simp [hmap]

/-- `get_split_inputs`'s loop succeeds on a `PIPES` list whose read configs
parse and whose inputs each have a section of parsing write configs: one
`SplitIn` per entry, pipe `<root>/<name>`, with one output per key of the
matching section at pipe `<root>/<key>`. -/
theorem inputs_loop_ok (root : String) (conf : IniDoc)
    (pipes : List (String × String))
    (hread : ∀ kv ∈ pipes, (Parser.get_read_config kv.2).isOk = true)
    (hsec : ∀ kv ∈ pipes, ∃ sec, conf.getSection kv.1 = some sec ∧
        ∀ kv2 ∈ sec, (Parser.get_write_config kv2.2).isOk = true) :
    ∃ ins, Parser.inputs_loop root conf pipes = Except.ok ins
      ∧ List.Forall₂ (fun (kv : String × String) (sin : SplitIn) =>
          sin.pipe = root ++ "/" ++ kv.1
          ∧ ∃ sec, conf.getSection kv.1 = some sec
            ∧ sin.outputs.length = sec.length
            ∧ sin.outputs.map SplitOut.pipe
              = sec.map (fun kv2 => root ++ "/" ++ kv2.1)) pipes ins := by
  induction pipes with
  | nil => exact ⟨[], rfl, List.Forall₂.nil⟩
  | cons kv rest ih =>
    obtain ⟨k, v⟩ := kv
    obtain ⟨c, hc⟩ :=
      except_ok_of_isOk _ (hread (k, v) (List.mem_cons_self _ _))
    have hc' : Parser.get_read_config v = Except.ok c := hc
    obtain ⟨sec, hs, hw⟩ := hsec (k, v) (List.mem_cons_self _ _)
    have hs' : conf.getSection k = some sec := hs
    obtain ⟨outs, ho, hmap⟩ := outputs_loop_ok root sec
      (fun kv2 h2 => except_ok_of_isOk _ (hw kv2 h2))
    obtain ⟨ins, hi, hfa⟩ :=
      ih (fun kv2 h2 => hread kv2 (List.mem_cons_of_mem _ h2))
        (fun kv2 h2 => hsec kv2 (List.mem_cons_of_mem _ h2))
    have hgso : Parser.get_split_outputs conf k root = Except.ok outs := by
      rw [Parser.get_split_outputs, hs']
      exact ho
    refine ⟨{ configuration := c, outputs := outs,
              pipe := root ++ "/" ++ k } :: ins, ?_, ?_⟩
    · show Parser.inputs_loop root conf ((k, v) :: rest) = _
      simp only [Parser.inputs_loop, hc', hgso, hi]
      rfl
    · refine List.Forall₂.cons ⟨rfl, sec, hs', ?_, hmap⟩ hfa
      have := congrArg List.length hmap
      simpa using this

/-- C7: on a well-formed INI document — one that has a `DEFAULT` section, a
`PIPES` section, one section per input name, and config strings that parse
— `load_from_file` returns exactly one `SplitIn` per `PIPES` key, in order,
each with pipe path `<root>/<name>`, whose outputs number the keys of the
section named after that input and have pipe paths `<root>/<key>`. -/
theorem config_round_trip (conf : IniDoc) (pipes : List (String × String))
    (_hdef : (conf.getSection "DEFAULT").isSome = true)
    (hpipes : conf.getSection "PIPES" = some pipes)
    (hread : ∀ kv ∈ pipes, (Parser.get_read_config kv.2).isOk = true)
    (hsec : ∀ kv ∈ pipes, ∃ sec, conf.getSection kv.1 = some sec ∧
        ∀ kv2 ∈ sec, (Parser.get_write_config kv2.2).isOk = true) :
    ∃ ins, Parser.load_from_file (Except.ok conf) true = Except.ok ins
      ∧ ins.length = pipes.length
      ∧ List.Forall₂ (fun (kv : String × String) (sin : SplitIn) =>
          sin.pipe = Parser.get_root_directory conf ++ "/" ++ kv.1
          ∧ ∃ sec, conf.getSection kv.1 = some sec
            ∧ sin.outputs.length = sec.length
            ∧ sin.outputs.map SplitOut.pipe
              = sec.map (fun kv2 =>
                  Parser.get_root_directory conf ++ "/" ++ kv2.1)) pipes ins := by
  obtain ⟨ins, hi, hfa⟩ :=
    inputs_loop_ok (Parser.get_root_directory conf) conf pipes hread hsec
  refine ⟨ins, ?_, hfa.length_eq.symm, hfa⟩
  show Parser.parse_config conf true = _
  rw [Parser.parse_config]
  simp only [Bool.not_true, Bool.false_eq_true, if_false, hpipes]
  exact hi

/-- The INI document of the repository's `load_from_file` test. -/
def sample_ini : IniDoc :=
  { sections := [("DEFAULT", [("root", "/tmp")]),
                 ("PIPES", [("cvAnalogsMapperExt", "")]),
                 ("cvAnalogsMapperExt", [("cvAnalogsMapperExtFuelApp", "")])] }

/-- C7 witness: the round-trip theorem applied to the repository's own test
configuration. -/
theorem config_round_trip_witness :
    (Parser.load_from_file (Except.ok sample_ini) true).isOk = true := by
  obtain ⟨ins, hi, -, -⟩ := config_round_trip sample_ini
    [("cvAnalogsMapperExt", "")] (by decide) (by decide) (by decide)
    (by
      intro kv hkv
      rw [List.mem_singleton] at hkv
      subst hkv
      exact ⟨[("cvAnalogsMapperExtFuelApp", "")], by decide, by decide⟩)
  rw [hi]
  rfl

/-- The two copies of `get_split_configuration` agree (src/lib.rsversus
src/parser.rs), up to the evident error-enum correspondence. -/
theorem rs_get_split_configuration_equiv (s : String) :
    Parser.get_split_configuration s
      = (ParserRs.get_split_configuration s).mapError
          ParserRs.Error.toParseError := by
  unfold Parser.get_split_configuration ParserRs.get_split_configuration
  rcases h1 : (rust_split_commas s).get? 1 with _ | f
  · simp only [h1]
    rfl
  · simp only [h1]
    split <;> simp_all [ParserRs.Error.toParseError, Except.mapError]

/-- The two copies of `get_read_config` agree. -/
theorem rs_get_read_config_equiv (s : String) :
    Parser.get_read_config s
      = (ParserRs.get_read_config s).mapError ParserRs.Error.toParseError := by
  unfold Parser.get_read_config ParserRs.get_read_config
  cases h : s.isEmpty
  · simp only [h, Bool.false_eq_true, if_false]
    exact rs_get_split_configuration_equiv s
  · rfl

/-- The two copies of `get_write_config` agree. -/
theorem rs_get_write_config_equiv (s : String) :
    Parser.get_write_config s
      = (ParserRs.get_write_config s).mapError ParserRs.Error.toParseError := by
  unfold Parser.get_write_config ParserRs.get_write_config
  cases h : s.isEmpty
  · simp only [h, Bool.false_eq_true, if_false]
    exact rs_get_split_configuration_equiv s
  · rfl

/-- The two copies of `get_split_outputs`'s loop agree. -/
theorem rs_outputs_loop_equiv (root : String) (sec : List (String × String)) :
    Parser.outputs_loop root sec
      = (ParserRs.outputs_loop root sec).mapError ParserRs.Error.toParseError := by
  induction sec with
  | nil => rfl
  | cons kv rest ih =>
    obtain ⟨k, v⟩ := kv
    simp only [Parser.outputs_loop, ParserRs.outputs_loop]
    rw [rs_get_write_config_equiv v, ih]
    cases ParserRs.get_write_config v with
    | error e => rfl
    | ok c =>
      cases ParserRs.outputs_loop root rest with
      | error e => rfl
      | ok outs => rfl

/-- The two copies of `get_split_outputs` agree. -/
theorem rs_get_split_outputs_equiv (conf : IniDoc) (input_pipe root : String) :
    Parser.get_split_outputs conf input_pipe root
      = (ParserRs.get_split_outputs conf input_pipe root).mapError
          ParserRs.Error.toParseError := by
  unfold Parser.get_split_outputs ParserRs.get_split_outputs
  cases h : conf.getSection input_pipe
  · rfl
  · exact rs_outputs_loop_equiv root _

/-- The two copies of `get_split_inputs`'s loop agree. -/
theorem rs_inputs_loop_equiv (root : String) (conf : IniDoc)
    (pipes : List (String × String)) :
    Parser.inputs_loop root conf pipes
      = (ParserRs.inputs_loop root conf pipes).mapError
          ParserRs.Error.toParseError := by
  induction pipes with
  | nil => rfl
  | cons kv rest ih =>
    obtain ⟨k, v⟩ := kv
    simp only [Parser.inputs_loop, ParserRs.inputs_loop]
    rw [rs_get_read_config_equiv v, rs_get_split_outputs_equiv conf k root, ih]
    cases ParserRs.get_read_config v with
    | error e => rfl
    | ok c =>
      cases ParserRs.get_split_outputs conf k root with
      | error e => rfl
      | ok outs =>
        cases ParserRs.inputs_loop root conf rest with
        | error e => rfl
        | ok ins => rfl

/-- The two copies of `parse_config` agree. -/
theorem rs_parse_config_equiv (conf : IniDoc) (root_dir_ok : Bool) :
    Parser.parse_config conf root_dir_ok
      = (ParserRs.parse_config conf root_dir_ok).mapError
          ParserRs.Error.toParseError := by
  unfold Parser.parse_config ParserRs.parse_config
  cases root_dir_ok
  · rfl
  · cases h : conf.getSection "PIPES"
    · simp only [h]
      rfl
    · simp only [h]
      exact rs_inputs_loop_equiv _ conf _

/-- C10: the configuration parser duplicated in src/parser.rs (public) and
inside src/lib.rs (private) are equivalent: on every configuration string
the two `get_split_configuration` / `get_read_config` / `get_write_config`
return the same configuration or an error with the same constructor and
message, the root directories agree, and on every INI document the two
`parse_config` / `load_from_file` pipelines produce equal `SplitIn`
sequences or equivalent errors. -/
theorem parser_duplicates_equivalent (s : String) (conf : IniDoc)
    (loaded : Except String IniDoc) (root_dir_ok : Bool) :
    Parser.get_split_configuration s
      = (ParserRs.get_split_configuration s).mapError ParserRs.Error.toParseError
  ∧ Parser.get_read_config s
      = (ParserRs.get_read_config s).mapError ParserRs.Error.toParseError
  ∧ Parser.get_write_config s
      = (ParserRs.get_write_config s).mapError ParserRs.Error.toParseError
  ∧ Parser.get_root_directory conf = ParserRs.get_root_directory conf
  ∧ Parser.parse_config conf root_dir_ok
      = (ParserRs.parse_config conf root_dir_ok).mapError
          ParserRs.Error.toParseError
  ∧ Parser.load_from_file loaded root_dir_ok
      = (ParserRs.load_from_file loaded root_dir_ok).mapError
          ParserRs.Error.toParseError
  ∧ (ParserRs.Error.toParseError (ParserRs.Error.Ini "m") = ParseError.Ini "m"
     ∧ ParserRs.Error.toParseError (ParserRs.Error.Configuration "m")
        = ParseError.Configuration "m") := by
  refine ⟨rs_get_split_configuration_equiv s, rs_get_read_config_equiv s,
    rs_get_write_config_equiv s, rfl, rs_parse_config_equiv conf root_dir_ok,
    ?_, rfl, rfl⟩
  cases loaded with
  | error e => rfl
  | ok c => exact rs_parse_config_equiv c root_dir_ok

/-! ### Concrete evaluations

These mirror the repository's unit tests (`load_from_file`,
`needs_pipes_section`, `valid_pipe_configuration`) and pin down the models
on concrete inputs. -/

/-- The `valid_pipe_configuration` test: mode code `wf` is rejected with
the exact message. -/
theorem get_split_configuration_unknown_example :
    Parser.get_split_configuration "1,wf"
      = Except.error (ParseError.Configuration "Unknown operation type 'wf'") := rfl

/-- Mode codes are case-insensitive: `1,WT` enables string-write mode. -/
theorem get_split_configuration_mode_example :
    Parser.get_split_configuration "1,WT"
      = Except.ok { enabled := true, mode := some OperationMode.StringWrite } := rfl

/-- The `load_from_file` test: one input with one output, both defaulted,
with pipe paths under the configured root. -/
theorem load_from_file_example :
    Parser.load_from_file (Except.ok sample_ini) true
      = Except.ok
          [{ configuration := Config.default_read,
             outputs := [{ pipe := "/tmp/cvAnalogsMapperExtFuelApp",
                           configuration := Config.default_write }],
             pipe := "/tmp/cvAnalogsMapperExt" }] := rfl

/-- A fan-out over one empty channel, one full channel, one already-marked
destination and one dead receiver. -/
theorem send_message_example :
    Reader.send_message
      [{ disconnected := false, sender := { bound := 1, buffer := [], receiver_alive := true } },
       { disconnected := false, sender := { bound := 1, buffer := ["x"], receiver_alive := true } },
       { disconnected := true, sender := { bound := 1, buffer := [], receiver_alive := true } },
       { disconnected := false, sender := { bound := 1, buffer := [], receiver_alive := false } }]
      "m"
      = [({ disconnected := false, sender := { bound := 1, buffer := ["m"], receiver_alive := true } },
          SendOutcome.delivered),
         ({ disconnected := false, sender := { bound := 1, buffer := ["x"], receiver_alive := true } },
          SendOutcome.dropped_full),
         ({ disconnected := true, sender := { bound := 1, buffer := [], receiver_alive := true } },
          SendOutcome.skipped),
         ({ disconnected := true, sender := { bound := 1, buffer := [], receiver_alive := false } },
          SendOutcome.found_disconnected)] := by
  decide

/-- A write session that writes one line and then hits `EPIPE`: the line
before the failure was written, the latch is set, the flow is `Restart`. -/
theorem loop_write_messages_example :
    Writer.loop_write_messages false false
      [{ should_stop := false, should_close_pipe := false,
         recv := RecvResult.Msg "a", write_result := WriteResult.ok 2 },
       { should_stop := false, should_close_pipe := false,
         recv := RecvResult.Msg "b",
         write_result := WriteResult.err ErrorKind.BrokenPipe }]
      = (some WriteFlow.Restart, true, ["a"]) := by
  decide

/-- A Reader that serves one readable poll pass and then stops writes
`[RUN, CLOSE, EXIT]`, and its drop appends a final `EXIT`. -/
theorem lifetime_writes_example :
    Reader.lifetime_writes
      [{ should_stop := false, readable_events := 1 },
       { should_stop := true, readable_events := 0 }]
      = [SIG_RUN, SIG_CLOSE, SIG_EXIT, SIG_EXIT] := by
  decide

end Psplit
